import Mathlib

/-!
# Verification of `Autoencoder_Models.ipynb`

Shallow embedding of the autoencoder training notebook from
`Computer_Vision_Based_Outfit_Recommendation`.  The notebook builds a fixed
convolutional encoder/decoder graph in Keras (channels-first), trains it per
clothing category and once on the pooled data, and saves the resulting models.

The embedding covers:
* the fixed layer stacks of the encoder, the decoder, and the two models
  (`autoencoder`, `encoder`) built from them (notebook cell 4);
* Keras shape semantics for those layers (`same` padding, stride = pool size,
  nearest-neighbour upsampling), used by the notebook's own
  `K.int_shape(decoded)` check;
* the weight-variable allocation performed when a model is instantiated
  (`Model(...)` over a shared graph versus `model_from_json`, which builds a
  fresh graph with freshly initialized weight variables);
* the training hyperparameters of both `fit` calls and the Keras
  `EarlyStopping` epoch loop;
* the `features = features/255` normalization and the
  `np.concatenate(..., axis=0)` pooling step;
* the artifact names written by the per-category loop and the pooled run.
-/

namespace AutoencoderModels

/-- Activation functions used by the notebook's layers. -/
inductive Activation
  | relu
  | sigmoid
  deriving DecidableEq, Repr

/-- The Keras layer kinds appearing in the notebook's architecture
(cell 4): `Conv2D filters (kh, kw) activation padding='same'`,
`MaxPooling2D (ph, pw) padding='same'`, `UpSampling2D (sh, sw)`, `Flatten`.
`padSame` records whether `padding='same'` was passed (it always is here). -/
inductive Layer
  | conv2D (filters kh kw : Nat) (act : Activation) (padSame : Bool)
  | maxPool2D (ph pw : Nat) (padSame : Bool)
  | upSampling2D (sh sw : Nat)
  | flatten
  deriving DecidableEq, Repr

open Layer Activation

/-- Encoder stack, cell 4: `conv1, pool1, conv2, pool2, ..., conv7, pool7`.
Channel depths 496, 248, 124, 64, 32, 16, 16; every conv is 3x3 relu
`padding='same'`; every pooling is 2x2 `padding='same'`. -/
def encoderStack : List Layer :=
  [ conv2D 496 3 3 relu true, maxPool2D 2 2 true
  , conv2D 248 3 3 relu true, maxPool2D 2 2 true
  , conv2D 124 3 3 relu true, maxPool2D 2 2 true
  , conv2D 64 3 3 relu true, maxPool2D 2 2 true
  , conv2D 32 3 3 relu true, maxPool2D 2 2 true
  , conv2D 16 3 3 relu true, maxPool2D 2 2 true
  , conv2D 16 3 3 relu true, maxPool2D 2 2 true ]

/-- Decoder stack, cell 4: `conv8, up1, conv9, up2, ..., conv14, up7, decoded`.
Channel depths 16, 16, 32, 64, 124, 248, 496; upsampling factors
(2,2) five times, then `up6 = UpSampling2D((1, 1))`, then (2,2); final layer
`decoded = Conv2D(3, (5, 5), activation='sigmoid', padding='same')`. -/
def decoderStack : List Layer :=
  [ conv2D 16 3 3 relu true, upSampling2D 2 2
  , conv2D 16 3 3 relu true, upSampling2D 2 2
  , conv2D 32 3 3 relu true, upSampling2D 2 2
  , conv2D 64 3 3 relu true, upSampling2D 2 2
  , conv2D 124 3 3 relu true, upSampling2D 2 2
  , conv2D 248 3 3 relu true, upSampling2D 1 1
  , conv2D 496 3 3 relu true, upSampling2D 2 2
  , conv2D 3 5 5 sigmoid true ]

/-- Layers traversed by the full autoencoder,
`autoencoder = Model(input_layer, decoded)`: encoder stages followed by the
decoder stages. -/
def autoencoderLayers : List Layer := encoderStack ++ decoderStack

/-- Layers traversed by the encoder-only model,
`encoder = Model(input_layer, encoded)` where
`encoded = Flatten(name='encoded')(pool7)`. -/
def encoderModelLayers : List Layer := encoderStack ++ [flatten]

/-- Channels-first tensor shape `(ch, h, w)`, as in
`K.set_image_dim_ordering('th')` and `Input(shape=(3,64,64))`. -/
structure Shape where
  ch : Nat
  h : Nat
  w : Nat
  deriving DecidableEq, Repr

/-- Spatial output size of a pooling with `padding='same'` and stride equal to
the pool size (the Keras default): ceiling division of the input size by the
pool size. -/
def poolOut (n p : Nat) : Nat := (n + p - 1) / p

/-- Keras output-shape semantics of each layer kind (channels-first).
A `same`-padded stride-1 convolution keeps the spatial size and sets the
channel count to `filters`; `same`-padded pooling ceil-divides the spatial
size by the pool size; upsampling multiplies it by the scale factors;
`Flatten` produces a vector of length `ch * h * w`, rendered here as a
`(ch*h*w, 1, 1)` shape. -/
def layerOutShape : Layer → Shape → Shape
  | conv2D f _ _ _ _, s => ⟨f, s.h, s.w⟩
  | maxPool2D ph pw _, s => ⟨s.ch, poolOut s.h ph, poolOut s.w pw⟩
  | upSampling2D sh sw, s => ⟨s.ch, s.h * sh, s.w * sw⟩
  | flatten, s => ⟨s.ch * s.h * s.w, 1, 1⟩

/-- Output shape of a stack of layers applied to an input shape. -/
def outShape (ls : List Layer) (s : Shape) : Shape :=
  ls.foldl (fun t l => layerOutShape l t) s

/-- The batch axis is untouched by every layer in the graph: a model maps a
batch of shape `(n, s)` to the batch `(n, outShape ls s)`. -/
def modelBatchOutShape (ls : List Layer) (bs : Nat × Shape) : Nat × Shape :=
  (bs.1, outShape ls bs.2)

/-- The shape of the notebook's input layer, `Input(shape=(3,64,64))`. -/
def inputShape : Shape := ⟨3, 64, 64⟩

/-- Number of elements of the flattened embedding produced by `encoded`. -/
def embeddingDim : Nat := (outShape encoderModelLayers inputShape).ch

/-- The scale factors of the decoder's `UpSampling2D` layers, in order. -/
def decoderUpsamplings : List (Nat × Nat) :=
  decoderStack.filterMap fun l =>
    match l with
    | upSampling2D a b => some (a, b)
    | _ => none

/-- The filter counts of the decoder's `Conv2D` layers other than the final
projection `decoded`, in order. -/
def decoderConvDepths : List Nat :=
  (decoderStack.dropLast.filterMap fun l =>
    match l with
    | conv2D f _ _ _ _ => some f
    | _ => none)

/-! ## Weight variables and model instantiation

Building a Keras model materializes one set of trainable weight variables per
weight-bearing layer.  We model the global pool of weight variables as ids in
`Nat` allocated in layer order: a `Conv2D` owns two variables (kernel and
bias), the other layer kinds own none.  `Model(input, out)` over an already
built graph reuses the graph's variables, while `model_from_json` rebuilds the
architecture from its JSON description and allocates fresh variables with a
fresh initialization — it never copies weights. -/

/-- Number of trainable weight variables a layer owns (kernel and bias for
`Conv2D`; pooling, upsampling and flatten have none). -/
def weightVarsOfLayer : Layer → Nat
  | conv2D _ _ _ _ _ => 2
  | _ => 0

/-- Allocate weight-variable ids for a stack of layers starting at counter
`next`; returns the allocated ids in layer order and the new counter. -/
def allocIds : List Layer → Nat → List Nat × Nat
  | [], next => ([], next)
  | l :: rest, next =>
    let n := weightVarsOfLayer l
    let (ids, fin) := allocIds rest (next + n)
    ((List.range n).map (· + next) ++ ids, fin)

/-- An instantiated model: its architecture and the ids of the weight
variables it reads and trains. -/
structure ModelInst where
  arch : List Layer
  weightIds : List Nat
  deriving DecidableEq, Repr

/-- `model_from_json`: rebuild the architecture described by the JSON string
and allocate fresh weight variables for it (fresh initialization, no weights
carried over from any other model). -/
def model_from_json (arch : List Layer) (next : Nat) : ModelInst × Nat :=
  let (ids, fin) := allocIds arch next
  (⟨arch, ids⟩, fin)

/-- Cell 4: `autoencoder = Model(input_layer, decoded)` over the one shared
layer graph — it owns every conv variable on the path from the input to
`decoded`. -/
def sharedAutoencoder : ModelInst :=
  ⟨autoencoderLayers, (allocIds autoencoderLayers 0).1⟩

/-- Cell 4: `encoder = Model(input_layer, encoded)` over the same shared
graph — it owns exactly the variables of the encoder stages `conv1..conv7`
(the prefix of the shared allocation; `Flatten` owns none). -/
def sharedEncoder : ModelInst :=
  ⟨encoderModelLayers, (allocIds encoderStack 0).1⟩

/-- Cell 8, each loop iteration: `autoencoder = model_from_json(json_autoencoder)`
— a fresh graph with fresh weight variables, allocated first. -/
def loopAutoencoder : ModelInst := (model_from_json autoencoderLayers 0).1

/-- Cell 8, each loop iteration: `encoder = model_from_json(json_encoder)` —
a second fresh graph, allocated after the autoencoder, with its own fresh
weight variables. -/
def loopEncoder : ModelInst :=
  (model_from_json encoderModelLayers (model_from_json autoencoderLayers 0).2).1

/-- Effect of training a model on the global weight store: every variable the
model owns takes its newly learned value `upd i`; every other variable is
untouched. -/
def trainUpdate (store : Nat → ℚ) (ids : List Nat) (upd : Nat → ℚ) : Nat → ℚ :=
  fun i => if ids.contains i then upd i else store i

/-! ## Training hyperparameters (cells 6, 8, 12) -/

/-- Arguments of `EarlyStopping(monitor='val_loss', min_delta=0, patience=10,
verbose=1, mode='auto')` (cell 6). -/
structure EarlyStoppingArgs where
  monitor : String
  minDelta : ℚ
  patience : Nat
  verbose : Nat
  mode : String
  deriving DecidableEq, Repr

/-- The notebook's single early-stopping callback, shared by both runs. -/
def early_stopping : EarlyStoppingArgs :=
  ⟨"val_loss", 0, 10, 1, "auto"⟩

/-- Arguments of a `compile` call. -/
structure CompileArgs where
  optimizer : String
  loss : String
  deriving DecidableEq, Repr

/-- Arguments of a `fit` call. -/
structure FitArgs where
  epochs : Nat
  batchSize : Nat
  validationSplit : ℚ
  callbacks : List EarlyStoppingArgs
  deriving DecidableEq, Repr

/-- Cell 8: `autoencoder.compile(optimizer='adadelta', loss='binary_crossentropy')`. -/
def loopCompileArgs : CompileArgs := ⟨"adadelta", "binary_crossentropy"⟩

/-- Cell 8: `autoencoder.fit(features, features, epochs=400, batch_size=100,
validation_split=.15, callbacks=[early_stopping])`. -/
def loopFitArgs : FitArgs := ⟨400, 100, 15 / 100, [early_stopping]⟩

/-- Cell 12: `autoencoder.compile(optimizer='adadelta', loss='binary_crossentropy')`. -/
def pooledCompileArgs : CompileArgs := ⟨"adadelta", "binary_crossentropy"⟩

/-- Cell 12: `autoencoder.fit(features, features, epochs=400, batch_size=100,
validation_split=.15, callbacks=[early_stopping])`. -/
def pooledFitArgs : FitArgs := ⟨400, 100, 15 / 100, [early_stopping]⟩

/-! ## Data: normalization and pooling -/

/-- One image: channels-first nested lists of rational pixel values. -/
abbrev Sample := List (List (List ℚ))

/-- A batch of images (the first, sample, axis of a `(N,3,64,64)` array). -/
abbrev Batch := List Sample

/-- `features = features/255` (cells 8 and 10): numpy broadcasts the division
over every entry of the array. -/
def normalizeBatch (b : Batch) : Batch :=
  b.map fun s => s.map fun m => m.map fun r => r.map (· / 255)

/-- A predicate holding of every entry of a batch. -/
def batchForall (P : ℚ → Prop) (b : Batch) : Prop :=
  ∀ s ∈ b, ∀ m ∈ s, ∀ r ∈ m, ∀ q ∈ r, P q

instance (P : ℚ → Prop) [DecidablePred P] (b : Batch) :
    Decidable (batchForall P b) :=
  inferInstanceAs (Decidable (∀ s ∈ b, ∀ m ∈ s, ∀ r ∈ m, ∀ q ∈ r, P q))

/-- A sample has shape `(c, h, w)`. -/
def sampleHasShape (s : Sample) (c hh ww : Nat) : Prop :=
  s.length = c ∧ ∀ m ∈ s, m.length = hh ∧ ∀ r ∈ m, r.length = ww

instance (s : Sample) (c hh ww : Nat) : Decidable (sampleHasShape s c hh ww) :=
  inferInstanceAs
    (Decidable (s.length = c ∧ ∀ m ∈ s, m.length = hh ∧ ∀ r ∈ m, r.length = ww))

/-- Cell 10: `np.concatenate((dress_features, top_features, pullover_features,
outerwear_features, bottom_features, shoe_features, bag_features), axis=0)` —
concatenation along the sample axis. -/
def concatAllFeatures (dress top pullover outerwear bottom shoe bag : Batch) :
    Batch :=
  dress ++ top ++ pullover ++ outerwear ++ bottom ++ shoe ++ bag

/-! ## The training script: loop, pooled run, artifacts -/

/-- Cell 8: `item = ['dress','top','pullover','outerwear','bottom','shoe','bag']`. -/
def item : List String :=
  ["dress", "top", "pullover", "outerwear", "bottom", "shoe", "bag"]

/-- Artifact file names written by the per-category loop, cell 8:
`for i in range(1): ... autoencoder.save(item[i] + '_model.h5');
encoder.save(item[i] + 'embedding_model.h5')`. -/
def perCategoryArtifacts : List String :=
  (List.range 1).flatMap fun i =>
    [item.getD i ("") ++ "_model.h5", item.getD i ("") ++ "embedding_model.h5"]

/-- All artifact file names the script writes: the loop's, then the pooled
run's `autoencoder.save('all_model.h5'); encoder.save('all_embedding_model.h5')`
(cell 13). -/
def allArtifacts : List String :=
  perCategoryArtifacts ++ ["all_model.h5", "all_embedding_model.h5"]

/-- What a training run starts from: its name, the weight-variable ids of the
freshly built model pair, and the values those variables hold when `fit`
begins. -/
structure RunStart where
  name : String
  autoIds : List Nat
  encIds : List Nat
  autoStartWeights : List ℚ
  encStartWeights : List ℚ

/-- One training run, as each loop iteration and the pooled run perform it:
build `autoencoder` and `encoder` with `model_from_json` (allocating fresh
variables, initialized from the initializer stream `init` at their fresh
ids), then train the autoencoder.  The training procedure `train` is
arbitrary: it may read the whole store and the batch.  State threaded
through the script: the allocation counter and the weight store. -/
def runOne {σ : Type} (train : List Nat → (Nat → ℚ) → List σ → (Nat → ℚ))
    (init : Nat → ℚ) (name : String) (batch : List σ)
    (st : Nat × (Nat → ℚ)) : RunStart × (Nat × (Nat → ℚ)) :=
  let (auto, n1) := model_from_json autoencoderLayers st.1
  let (enc, n2) := model_from_json encoderModelLayers n1
  let store0 : Nat → ℚ := fun i =>
    if (auto.weightIds ++ enc.weightIds).contains i then init i else st.2 i
  let trained := train auto.weightIds store0 batch
  (⟨name, auto.weightIds, enc.weightIds,
      auto.weightIds.map store0, enc.weightIds.map store0⟩,
    (n2, trained))

/-- The whole script (cells 8 and 10-13): run the per-category loop
`for i in range(1)`, then concatenate all seven categories' batches and run
the pooled training once.  `data` maps a category name to its batch;
returns the start state of every run in order. -/
def script {σ : Type} (train : List Nat → (Nat → ℚ) → List σ → (Nat → ℚ))
    (init : Nat → ℚ) (data : String → List σ) : List RunStart :=
  let step := fun (acc : List RunStart × (Nat × (Nat → ℚ))) (i : Nat) =>
    let (r, st) := runOne train init (item.getD i ("")) (data (item.getD i (""))) acc.2
    (acc.1 ++ [r], st)
  let (runs, st) := (List.range 1).foldl step ([], (0, fun _ => 0))
  let pooled := data ("dress") ++ data ("top") ++ data ("pullover")
      ++ data ("outerwear") ++ data ("bottom") ++ data ("shoe") ++ data ("bag")
  let (r, _) := runOne train init ("all") pooled st
  runs ++ [r]

/-! ## The `fit` epoch loop with `EarlyStopping`

Keras `fit(epochs=E, callbacks=[EarlyStopping(monitor='val_loss',
min_delta=0, patience=p)])` runs at most `E` epochs; after each epoch it
compares the epoch's validation loss with the best value seen so far
(initially none, so the first epoch always counts as an improvement): on a
strict improvement it resets the wait counter, otherwise it increments the
counter and stops as soon as the counter reaches `p`.  `v e` is the
validation loss observed at epoch `e`. -/

/-- The epoch loop: `fuel` epochs remain, `epoch` epochs have run, `best` is
the best validation loss so far, `wait` counts consecutive epochs without
improvement.  Returns the total number of epochs run. -/
def runFitAux (v : Nat → ℚ) (patience : Nat) :
    Nat → Nat → Option ℚ → Nat → Nat
  | 0, epoch, _, _ => epoch
  | fuel + 1, epoch, none, _ =>
    runFitAux v patience fuel (epoch + 1) (some (v epoch)) 0
  | fuel + 1, epoch, some b, wait =>
    if v epoch < b then runFitAux v patience fuel (epoch + 1) (some (v epoch)) 0
    else if patience ≤ wait + 1 then epoch + 1
    else runFitAux v patience fuel (epoch + 1) (some b) (wait + 1)

/-- Number of epochs a `fit` call of the notebook runs when the validation
loss at epoch `e` is `v e`: at most `epochs=400`, with the `patience=10`
early-stopping callback. -/
def epochsRun (v : Nat → ℚ) : Nat :=
  runFitAux v early_stopping.patience loopFitArgs.epochs 0 none 0

/-- The best (smallest) validation loss among epochs `0, ..., i-1`
(meaningful for `1 ≤ i`). -/
def bestBefore (v : Nat → ℚ) (i : Nat) : ℚ :=
  (List.range i).foldl (fun b j => min b (v j)) (v 0)

/-- Epoch `i` fails to improve: it is not the first epoch and its validation
loss is no better than the best seen before it. -/
def noImprove (v : Nat → ℚ) (i : Nat) : Prop :=
  1 ≤ i ∧ bestBefore v i ≤ v i

/-- A 3x64x64 sample of zeros, used as a concrete test image. -/
def demoSample : Sample :=
  List.replicate 3 (List.replicate 64 (List.replicate 64 (0 : ℚ)))

/-- A concrete raw batch with integer pixel values 0, 128, 255. -/
def demoBatch : Batch := [[[[0, 128, 255]]]]

/-! ## Theorems -/

/-- C1: the claim asserts that the autoencoder and the encoder-only model
share all encoder weights — in particular for the model pair each loop
iteration trains and saves.  The code violates this: inside the loop the
pair is rebuilt by two separate `model_from_json` calls, which allocate
disjoint weight variables, so training the autoencoder leaves every weight
of the saved encoder at its fresh random initialization.  Only the cell-4
pair (`Model(input_layer, decoded)` / `Model(input_layer, encoded)`) built
over the one shared graph has the claimed property: its encoder's variables
are exactly a subset of the autoencoder's and training updates them all. -/
theorem loop_pair_shares_no_weights :
    loopEncoder.weightIds.filter loopAutoencoder.weightIds.contains = [] ∧
    (∀ store upd : Nat → ℚ,
      loopEncoder.weightIds.map (trainUpdate store loopAutoencoder.weightIds upd)
        = loopEncoder.weightIds.map store) ∧
    sharedEncoder.weightIds.filter sharedAutoencoder.weightIds.contains
      = sharedEncoder.weightIds ∧
    (∀ store upd : Nat → ℚ,
      sharedEncoder.weightIds.map (trainUpdate store sharedAutoencoder.weightIds upd)
        = sharedEncoder.weightIds.map upd) :=
  ⟨rfl, fun _ _ => rfl, rfl, fun _ _ => rfl⟩

/-- C2: the claim asserts the loop trains all seven categories and writes
fourteen per-category artifacts.  The code's loop is `for i in range(1)`:
only the first category, `dress`, is trained; the script writes exactly two
per-category artifacts plus the two pooled ones (four files in total), and
for example no `top_model.h5` is ever written, although the category list
does contain all seven names. -/
theorem loop_covers_only_first_category :
    allArtifacts = ["dress_model.h5", "dressembedding_model.h5",
        "all_model.h5", "all_embedding_model.h5"] ∧
    perCategoryArtifacts.length = 2 ∧
    "top_model.h5" ∉ allArtifacts ∧
    item.length = 7 :=
  ⟨rfl, rfl, by decide, rfl⟩

/-- C3 counterexample: the claim asserts every upsampling step in the
decoder scales each spatial dimension by a factor of 2, but the sixth
upsampling layer is `up6 = UpSampling2D((1, 1))`. -/
theorem decoder_upsampling_not_all_two :
    ¬ ∀ p ∈ decoderUpsamplings, p = (2, 2) := by
  decide

/-- C3 amended: the decoder is convolution + upsampling pairs at channel
depths 16, 16, 32, 64, 124, 248, 496 followed by a final 5x5 sigmoid
convolution to 3 channels, where the first five and the seventh upsampling
scale each spatial dimension by 2 and the sixth is `UpSampling2D((1, 1))`,
which leaves the spatial size unchanged; the stack maps the `(16,1,1)`
bottleneck back to `(3,64,64)`. -/
theorem decoder_upsampling_structure :
    decoderUpsamplings = [(2, 2), (2, 2), (2, 2), (2, 2), (2, 2), (1, 1), (2, 2)] ∧
    decoderConvDepths = [16, 16, 32, 64, 124, 248, 496] ∧
    decoderStack.getLast? = some (conv2D 3 5 5 sigmoid true) ∧
    (∀ s : Shape, layerOutShape (upSampling2D 1 1) s = ⟨s.ch, s.h * 1, s.w * 1⟩) ∧
    outShape decoderStack ⟨16, 1, 1⟩ = ⟨3, 64, 64⟩ :=
  ⟨rfl, rfl, rfl, fun _ => rfl, rfl⟩

/-- C4: the full autoencoder maps any batch of shape `(N,3,64,64)` to an
output batch of exactly the same shape, for every batch size `N`. -/
theorem autoencoder_preserves_batch_shape (n : Nat) :
    modelBatchOutShape autoencoderLayers (n, inputShape) = (n, inputShape) := by
  have h : outShape autoencoderLayers inputShape = inputShape := by decide
  simp [modelBatchOutShape, h]

/-- Witness for C4 at batch size 5. -/
theorem autoencoder_preserves_batch_shape_witness :
    modelBatchOutShape autoencoderLayers (5, inputShape) = (5, inputShape) :=
  autoencoder_preserves_batch_shape 5

/-- C5: both `fit` calls (the per-category loop's and the pooled run's) use
the Adadelta optimizer, binary cross-entropy loss, at most 400 epochs,
mini-batch size 100, a 15% validation split, and the single early-stopping
callback with patience 10 monitoring the validation loss. -/
theorem fit_hyperparameters_fixed :
    loopCompileArgs.optimizer = "adadelta" ∧
    loopCompileArgs.loss = "binary_crossentropy" ∧
    pooledCompileArgs = loopCompileArgs ∧
    loopFitArgs.epochs = 400 ∧
    loopFitArgs.batchSize = 100 ∧
    loopFitArgs.validationSplit = 15 / 100 ∧
    loopFitArgs.callbacks = [early_stopping] ∧
    pooledFitArgs = loopFitArgs ∧
    early_stopping.monitor = "val_loss" ∧
    early_stopping.patience = 10 :=
  ⟨rfl, rfl, rfl, rfl, rfl, rfl, rfl, rfl, rfl, rfl⟩

set_option maxHeartbeats 2000000 in
/-- C9: every training run (the loop's iteration and the pooled run)
re-instantiates its model pair with `model_from_json`, so the weights it
starts from are the fresh initializer draws at freshly allocated variable
ids — an expression in the initializer stream alone, independent of the
training procedure and of every category's data — and the pooled run's
variables are disjoint from all of the loop run's, so no weights are
carried over between runs. -/
theorem runs_start_from_fresh_init {σ : Type}
    (train₁ train₂ : List Nat → (Nat → ℚ) → List σ → (Nat → ℚ))
    (init : Nat → ℚ) (data₁ data₂ : String → List σ) :
    (script train₁ init data₁).map (fun r => r.autoStartWeights)
        = [(List.range 30).map init, ((List.range 30).map (· + 44)).map init] ∧
    (script train₁ init data₁).map (fun r => r.encStartWeights)
        = [((List.range 14).map (· + 30)).map init,
           ((List.range 14).map (· + 74)).map init] ∧
    (script train₁ init data₁).map (fun r => (r.name, r.autoIds, r.encIds))
        = (script train₂ init data₂).map (fun r => (r.name, r.autoIds, r.encIds)) ∧
    ((script train₁ init data₁).getLast?.map
        (fun r => (r.autoIds ++ r.encIds).filter (List.range 44).contains))
      = some [] :=
  ⟨rfl, rfl, rfl, rfl⟩

/-- Witness for C9 at a concrete training procedure (the identity on the
store), the constant-zero initializer stream, and empty category batches. -/
theorem runs_start_from_fresh_init_witness :
    (@script Nat (fun _ s _ => s) (fun _ => (0 : ℚ)) (fun _ => [])).map
        (fun r => r.autoStartWeights)
      = [(List.range 30).map (fun _ => (0 : ℚ)),
         ((List.range 30).map (· + 44)).map (fun _ => (0 : ℚ))] :=
  (@runs_start_from_fresh_init Nat (fun _ s _ => s) (fun _ s _ => s)
    (fun _ => (0 : ℚ)) (fun _ => []) (fun _ => [])).1

/-- C10: the encoder's seven `same`-padded 2x2 max-poolings reduce the
64x64 spatial grid to 1x1 — after the sixth pooling the shape is already
`(16,1,1)` and a 2x2 `same`-padded pooling is the identity on a 1x1 grid —
so the flattened bottleneck embedding has exactly 16 elements. -/
theorem embedding_has_16_elements :
    embeddingDim = 16 ∧
    outShape encoderStack inputShape = ⟨16, 1, 1⟩ ∧
    outShape (encoderStack.take 12) inputShape = ⟨16, 1, 1⟩ ∧
    layerOutShape (maxPool2D 2 2 true) ⟨16, 1, 1⟩ = ⟨16, 1, 1⟩ ∧
    outShape encoderModelLayers inputShape = ⟨16 * 1 * 1, 1, 1⟩ :=
  ⟨rfl, rfl, rfl, rfl, rfl⟩

/-- C6: normalization is exactly the elementwise division of the raw array
by 255, and for raw integer entries in `[0, 255]` every normalized entry
lies in `[0, 1]`. -/
theorem normalize_divides_by_255 (b : Batch)
    (h : batchForall (fun q => q.den = 1 ∧ 0 ≤ q ∧ q ≤ 255) b) :
    normalizeBatch b
        = b.map (fun s => s.map fun m => m.map fun r => r.map (· / 255)) ∧
    batchForall (fun q => 0 ≤ q ∧ q ≤ 1) (normalizeBatch b) := by
  refine ⟨rfl, ?_⟩
  intro s hs m hm r hr q hq
  simp only [normalizeBatch, List.mem_map] at hs
  obtain ⟨s₀, hs₀, rfl⟩ := hs
  simp only [List.mem_map] at hm
  obtain ⟨m₀, hm₀, rfl⟩ := hm
  simp only [List.mem_map] at hr
  obtain ⟨r₀, hr₀, rfl⟩ := hr
  simp only [List.mem_map] at hq
  obtain ⟨q₀, hq₀, rfl⟩ := hq
  obtain ⟨-, h0, h255⟩ := h s₀ hs₀ m₀ hm₀ r₀ hr₀ q₀ hq₀
  exact ⟨div_nonneg h0 (by norm_num), by rw [div_le_one (by norm_num)]; exact h255⟩

/-- Witness for C6 at the concrete raw batch with entries 0, 128, 255. -/
theorem normalize_divides_by_255_witness :
    batchForall (fun q => q.den = 1 ∧ 0 ≤ q ∧ q ≤ 255) demoBatch ∧
    batchForall (fun q => 0 ≤ q ∧ q ≤ 1) (normalizeBatch demoBatch) :=
  ⟨by decide, (normalize_divides_by_255 demoBatch (by decide)).2⟩

/-- C7: concatenating seven category batches along the sample axis gives a
batch whose sample count is the sum of the seven counts and whose samples
all keep the per-sample shape `(3,64,64)` when the inputs' samples have it. -/
theorem concat_preserves_count_and_shape
    (dress top pullover outerwear bottom shoe bag : Batch)
    (h : ∀ b ∈ [dress, top, pullover, outerwear, bottom, shoe, bag],
        ∀ s ∈ b, sampleHasShape s 3 64 64) :
    (concatAllFeatures dress top pullover outerwear bottom shoe bag).length
        = dress.length + top.length + pullover.length + outerwear.length
          + bottom.length + shoe.length + bag.length ∧
    ∀ s ∈ concatAllFeatures dress top pullover outerwear bottom shoe bag,
      sampleHasShape s 3 64 64 := by
  constructor
  · simp only [concatAllFeatures, List.length_append]
  · intro s hs
    simp only [concatAllFeatures, List.mem_append] at hs
    rcases hs with ((((((hh | hh) | hh) | hh) | hh) | hh) | hh)
    · exact h dress (by simp) s hh
    · exact h top (by simp) s hh
    · exact h pullover (by simp) s hh
    · exact h outerwear (by simp) s hh
    · exact h bottom (by simp) s hh
    · exact h shoe (by simp) s hh
    · exact h bag (by simp) s hh

/-- The concrete zero sample has shape `(3,64,64)`. -/
lemma demoSample_shape : sampleHasShape demoSample 3 64 64 := by
  refine ⟨by simp [demoSample], ?_⟩
  intro m hm
  simp only [demoSample] at hm
  rw [List.eq_of_mem_replicate hm]
  refine ⟨by simp, ?_⟩
  intro r hr
  rw [List.eq_of_mem_replicate hr]
  simp

/-- Witness for C7 at seven one-sample batches of the concrete zero image. -/
theorem concat_preserves_count_and_shape_witness :
    (∀ b ∈ [[demoSample], [demoSample], [demoSample], [demoSample],
        [demoSample], [demoSample], [demoSample]],
      ∀ s ∈ b, sampleHasShape s 3 64 64) ∧
    (concatAllFeatures [demoSample] [demoSample] [demoSample] [demoSample]
        [demoSample] [demoSample] [demoSample]).length = 7 ∧
    ∀ s ∈ concatAllFeatures [demoSample] [demoSample] [demoSample] [demoSample]
        [demoSample] [demoSample] [demoSample], sampleHasShape s 3 64 64 := by
  have hshape : ∀ b ∈ [[demoSample], [demoSample], [demoSample], [demoSample],
      [demoSample], [demoSample], [demoSample]],
      ∀ s ∈ b, sampleHasShape s 3 64 64 := by
    intro b hb s hs
    simp only [List.mem_cons, List.not_mem_nil, or_false] at hb
    rcases hb with rfl | rfl | rfl | rfl | rfl | rfl | rfl <;>
      · simp only [List.mem_singleton] at hs
        rw [hs]
        exact demoSample_shape
  have h := concat_preserves_count_and_shape [demoSample] [demoSample]
    [demoSample] [demoSample] [demoSample] [demoSample] [demoSample] hshape
  exact ⟨hshape, h.1, h.2⟩

/-! ### Termination of the `fit` loop (C8) -/

/-- The epoch loop never runs more epochs than it has fuel. -/
lemma runFitAux_le (v : Nat → ℚ) (p : Nat) :
    ∀ fuel epoch best wait, runFitAux v p fuel epoch best wait ≤ epoch + fuel := by
  intro fuel
  induction fuel with
  | zero => intro epoch best wait; simp [runFitAux]
  | succ n ih =>
    intro epoch best wait
    cases best with
    | none =>
      rw [runFitAux]
      exact le_trans (ih (epoch + 1) _ _) (by omega)
    | some b =>
      rw [runFitAux]
      by_cases h1 : v epoch < b
      · rw [if_pos h1]
        exact le_trans (ih (epoch + 1) _ _) (by omega)
      · rw [if_neg h1]
        by_cases h2 : p ≤ wait + 1
        · rw [if_pos h2]; omega
        · rw [if_neg h2]
          exact le_trans (ih (epoch + 1) _ _) (by omega)

/-- One step of the running best: the best over `i + 1` epochs is the best
over `i` epochs combined with epoch `i`'s loss. -/
lemma bestBefore_succ (v : Nat → ℚ) (i : Nat) :
    bestBefore v (i + 1) = min (bestBefore v i) (v i) := by
  unfold bestBefore
  rw [List.range_succ, List.foldl_append]
  simp

/-- Inside a window of consecutive non-improving epochs starting at `k`, the
wait counter grows every epoch, so the loop stops no later than epoch
`k + 9`, having run at most `k + 10` epochs. -/
lemma runFitAux_window (v : Nat → ℚ) (k : Nat)
    (hw : ∀ j, k ≤ j → j < k + 10 → noImprove v j) :
    ∀ fuel j wait, j ≤ 9 → j ≤ wait → k + 10 ≤ k + j + fuel →
      runFitAux v 10 fuel (k + j) (some (bestBefore v (k + j))) wait ≤ k + 10 := by
  intro fuel
  induction fuel with
  | zero => intro j wait hj hjw hfuel; omega
  | succ n ih =>
    intro j wait hj hjw hfuel
    have hni := hw (k + j) (by omega) (by omega)
    have hnlt : ¬ v (k + j) < bestBefore v (k + j) := not_lt.mpr hni.2
    rw [runFitAux, if_neg hnlt]
    by_cases hstop : 10 ≤ wait + 1
    · rw [if_pos hstop]; omega
    · rw [if_neg hstop]
      have hbb : bestBefore v (k + j + 1) = bestBefore v (k + j) := by
        rw [bestBefore_succ]
        exact min_eq_left hni.2
      have hj9 : j + 1 ≤ 9 := by omega
      rw [← hbb]
      exact ih (j + 1) (wait + 1) hj9 (by omega) (by omega)

/-- Before the window the loop either stops (even earlier) or reaches the
window with the invariant that `best` is the best loss seen so far; in
either case it runs at most `k + 10` epochs. -/
lemma runFitAux_reach (v : Nat → ℚ) (k : Nat)
    (hw : ∀ j, k ≤ j → j < k + 10 → noImprove v j) :
    ∀ fuel epoch best wait,
      epoch ≤ k →
      best = (if epoch = 0 then none else some (bestBefore v epoch)) →
      k + 10 ≤ epoch + fuel →
      runFitAux v 10 fuel epoch best wait ≤ k + 10 := by
  have hk1 : 1 ≤ k := (hw k le_rfl (by omega)).1
  intro fuel
  induction fuel with
  | zero => intro epoch best wait h1 h2 h3; omega
  | succ n ih =>
    intro epoch best wait hek hbest hfuel
    by_cases heq : epoch = k
    · subst heq
      rw [if_neg (by omega)] at hbest
      subst hbest
      have := runFitAux_window v epoch hw (n + 1) 0 wait (by omega) (by omega)
        (by omega)
      simpa using this
    · have hlt : epoch < k := lt_of_le_of_ne hek heq
      by_cases h0 : epoch = 0
      · subst h0
        rw [if_pos rfl] at hbest
        subst hbest
        rw [runFitAux]
        have hb1 : some (v 0)
            = (if 1 = 0 then none else some (bestBefore v 1)) := by
          rw [if_neg (by omega)]
          unfold bestBefore
          rw [show List.range 1 = [0] from rfl]
          simp
        exact ih 1 (some (v 0)) 0 (by omega) hb1 (by omega)
      · rw [if_neg h0] at hbest
        subst hbest
        rw [runFitAux]
        by_cases himp : v epoch < bestBefore v epoch
        · rw [if_pos himp]
          have hb : some (v epoch)
              = (if epoch + 1 = 0 then none else some (bestBefore v (epoch + 1))) := by
            rw [if_neg (by omega), bestBefore_succ]
            rw [min_eq_right (le_of_lt himp)]
          exact ih (epoch + 1) _ 0 (by omega) hb (by omega)
        · rw [if_neg himp]
          by_cases hstop : 10 ≤ wait + 1
          · rw [if_pos hstop]; omega
          · rw [if_neg hstop]
            have hb : some (bestBefore v epoch)
                = (if epoch + 1 = 0 then none else some (bestBefore v (epoch + 1))) := by
              rw [if_neg (by omega), bestBefore_succ]
              rw [min_eq_left (not_lt.mp himp)]
            exact ih (epoch + 1) _ (wait + 1) (by omega) hb (by omega)

/-- C8: every training run terminates — for every validation-loss sequence
the `fit` loop runs at most the configured 400 epochs, and whenever the
validation loss fails to improve on the best seen value for the 10
consecutive epochs `k, ..., k + 9` (the configured patience) the loop stops
by the end of that window, having run at most `k + 10` epochs. -/
theorem fit_terminates (v : Nat → ℚ) (k : Nat) (hk : k + 10 ≤ 400)
    (hw : ∀ j, k ≤ j → j < k + 10 → noImprove v j) :
    (∀ u : Nat → ℚ, epochsRun u ≤ 400) ∧ epochsRun v ≤ k + 10 :=
  ⟨fun u => runFitAux_le u 10 400 0 none 0,
    runFitAux_reach v k hw 400 0 none 0 (by omega) rfl (by omega)⟩

/-- The running best of a constant loss sequence is that constant. -/
lemma bestBefore_const (c : ℚ) (i : Nat) : bestBefore (fun _ => c) i = c := by
  unfold bestBefore
  induction List.range i with
  | nil => simp
  | cons x xs ih =>
    rw [List.foldl_cons]
    simpa using ih

/-- Witness for C8: with a constant validation loss, epoch 0 improves on
nothing-seen-yet and epochs 1..10 never improve, so the run stops after 11
of the 400 allowed epochs. -/
theorem fit_terminates_witness :
    (1 + 10 ≤ 400 ∧ ∀ j, 1 ≤ j → j < 1 + 10 → noImprove (fun _ => (1 : ℚ)) j) ∧
    epochsRun (fun _ => (1 : ℚ)) ≤ 1 + 10 := by
  have hw : ∀ j, 1 ≤ j → j < 1 + 10 → noImprove (fun _ => (1 : ℚ)) j :=
    fun j h1 _ => ⟨h1, le_of_eq (bestBefore_const 1 j)⟩
  exact ⟨⟨by omega, hw⟩, (fit_terminates (fun _ => 1) 1 (by omega) hw).2⟩

end AutoencoderModels
